import Mathlib

/-!
Shallow embedding of the watchtox lottery subsystem
(`src/lotteryController.js` and the JSON read/write helper
`utils/readWriteJSON.js`), together with a small-step model of the
promise-chain write serializer and of interleaved request execution.

Data lives in one JSON document `{draws, tickets}`; every operation loads
the whole document, mutates a copy in memory, and commits the whole
document through a chained-promise write queue.
-/

/-- A lottery ticket, as stored in `data/lottery.json`:
`{id, userId, numbers, drawId, purchasedAt}`; `drawId` is `null` while the
ticket is pending. -/
structure Ticket where
  id : String
  userId : String
  numbers : List Nat
  drawId : Option String
  purchasedAt : String
deriving DecidableEq, Repr

/-- A draw, as stored in `data/lottery.json`: `{id, numbers, date}`. -/
structure Draw where
  id : String
  numbers : List Nat
  date : String
deriving DecidableEq, Repr

/-- The whole persisted document: `{draws: [...], tickets: [...]}`. -/
structure DB where
  draws : List Draw
  tickets : List Ticket
deriving DecidableEq, Repr

/-- The empty document `{draws: [], tickets: []}` used by `loadDB` when the
file is missing or unreadable (lotteryController.js line 53). -/
def emptyDB : DB := ⟨[], []⟩

/-- The authenticated caller identity (`req.user`): an object that may carry
a `role` string and an `email` string.  An absent or non-string field is
modelled as `none`. -/
structure User where
  role : Option String
  email : Option String
deriving DecidableEq, Repr

/-- JavaScript truthiness of an optional string field: `undefined`/absent and
the empty string are falsy, every other string is truthy.  Used for the
`if (user.role)` test in `isAdmin`. -/
def truthyField : Option String → Bool
  | none => false
  | some s => !(s == "")

/-- Embeds `isAdmin` (lotteryController.js lines 110-116):
`if (!user) return false; if (user.role) return user.role === 'admin';
return typeof user.email === 'string' && user.email.endsWith('@admin.com');`.
JS `String.prototype.endsWith` is modelled as a suffix test on the
character list. -/
def isAdmin (user : Option User) : Bool :=
  match user with
  | none => false
  | some u =>
    if truthyField u.role then u.role == some "admin"
    else
      match u.email with
      | some e => List.isSuffixOf "@admin.com".data e.data
      | none => false

/-- Modelled from the spec's words (for comparison with `isAdmin`, which is
translated from the source): "returns true if the identity carries an
explicit role field equal to the admin marker; else it returns true if the
identity carries an email-like field ending in the fixed administrative
domain suffix (the legacy fallback applies whenever the role test did not
yield true); and it returns false otherwise, including when the identity is
absent." -/
def isAdminSpec (user : Option User) : Bool :=
  match user with
  | none => false
  | some u =>
    if u.role == some "admin" then true
    else
      match u.email with
      | some e => List.isSuffixOf "@admin.com".data e.data
      | none => false

/-- Embeds `countMatches` (lotteryController.js lines 90-93):
`ticketNumbers.filter(n => drawSet.has(n)).length` where
`drawSet = new Set(drawNumbers)` — i.e. membership in `drawNumbers`. -/
def countMatches (ticketNumbers drawNumbers : List Nat) : Nat :=
  (ticketNumbers.filter (fun n => drawNumbers.contains n)).length

/-- Embeds `prizeFromMatches` (lotteryController.js lines 98-105). -/
def prizeFromMatches (m : Nat) : String :=
  match m with
  | 6 => "Jackpot!"
  | 5 => "Big prize"
  | 4 => "Small prize"
  | _ => "No prize"

/-- One step of the `while` body of `generateTicketNumbers`: `numbers.add(v)`
on a JS `Set` (insertion-ordered, duplicates ignored). -/
def addSample (acc : List Nat) (n : Nat) : List Nat :=
  if n ∈ acc then acc else acc ++ [n]

/-- The `while (numbers.size < 6)` loop of `generateTicketNumbers`
(lotteryController.js lines 79-82), with the stream of sampled values
`Math.floor(Math.random() * 49)` made explicit as the list `samples`
(each element lies in `[0,48]` when the RNG is faithful); the loop adds
`sample + 1`.  Returns `none` when the finite sample list is exhausted
before the set reaches size 6. -/
def collectSamples (samples : List Nat) (acc : List Nat) : Option (List Nat) :=
  if acc.length = 6 then some acc
  else
    match samples with
    | [] => none
    | s :: rest => collectSamples rest (addSample acc (s + 1))

/-- Embeds `generateTicketNumbers` (lotteryController.js lines 78-85):
collect 6 distinct values from the RNG stream, then
`Array.from(numbers).sort((a, b) => a - b)` — ascending numeric sort. -/
def generateTicketNumbers (samples : List Nat) : Option (List Nat) :=
  (collectSamples samples []).map (List.insertionSort (· ≤ ·))

/-- `db.tickets.filter(t => t.drawId === null)` (lotteryController.js
line 130) — the globally pending tickets. -/
def ticketsWithoutDraw (db : DB) : List Ticket :=
  db.tickets.filter (fun t => t.drawId == none)

/-- `ticketsWithoutDraw.filter(t => t.userId === userId)`
(lotteryController.js line 139) — the caller's own pending tickets. -/
def myPendingTickets (db : DB) (userId : String) : List Ticket :=
  (ticketsWithoutDraw db).filter (fun t => t.userId == userId)

/-- Outcome of `buyTicket`, by the HTTP status it answers with. -/
inductive BuyResult
  | unauthorized
  | capacityGlobal
  | capacityUser
  | created (t : Ticket)
deriving DecidableEq, Repr

/-- Embeds `buyTicket` (lotteryController.js lines 121-165) as a function of
the loaded document: auth check, global pending cap, per-user pending cap,
then append one fresh pending ticket and commit.  The generated numbers,
fresh uuid and timestamp are passed in (`numbers`, `newId`, `ts`); the
limits `maxPerDraw`/`maxPerUser` are the env-configurable
`MAX_TICKETS_PER_DRAW`/`MAX_TICKETS_PER_USER`.  Returns the response and
the document as committed (unchanged when the request is rejected, since
`writeDBAtomic` is only reached on success). -/
def buyTicket (maxPerDraw maxPerUser : Nat) (userId : Option String) (db : DB)
    (numbers : List Nat) (newId ts : String) : BuyResult × DB :=
  match userId with
  | none => (.unauthorized, db)
  | some uid =>
    if maxPerDraw ≤ (ticketsWithoutDraw db).length then (.capacityGlobal, db)
    else if maxPerUser ≤ (myPendingTickets db uid).length then (.capacityUser, db)
    else
      let newTicket : Ticket := ⟨newId, uid, numbers, none, ts⟩
      (.created newTicket, { db with tickets := db.tickets ++ [newTicket] })

/-- Outcome of `draw`, by the HTTP status it answers with. -/
inductive DrawResult
  | forbidden
  | conflict
  | created (d : Draw)
deriving DecidableEq, Repr

/-- `db.draws.find(d => !db.tickets.some(t => t.drawId === d.id))`
(lotteryController.js line 206) — the first draw with no ticket assigned. -/
def findOpenDraw (db : DB) : Option Draw :=
  db.draws.find? (fun d => !(db.tickets.any (fun t => t.drawId == some d.id)))

/-- Embeds `draw` (lotteryController.js lines 197-234): admin check, reject
while an unfilled draw exists, otherwise push a fresh draw and assign every
pending ticket (`drawId === null`) to it, in one commit.  The generated
numbers, fresh uuid and date are passed in. -/
def draw (user : Option User) (db : DB) (numbers : List Nat)
    (newId date : String) : DrawResult × DB :=
  if !(isAdmin user) then (.forbidden, db)
  else
    match findOpenDraw db with
    | some _ => (.conflict, db)
    | none =>
      let newDraw : Draw := ⟨newId, numbers, date⟩
      let db' : DB :=
        { draws := db.draws ++ [newDraw],
          tickets := db.tickets.map (fun t =>
            if t.drawId == none then { t with drawId := some newDraw.id } else t) }
      (.created newDraw, db')

/-- `buyTicket` with the number generation inlined, as in the source where
`generateTicketNumbers()` is called inside the handler: `none` when the
sample stream cannot produce 6 distinct numbers. -/
def buyTicketGen (maxPerDraw maxPerUser : Nat) (userId : Option String) (db : DB)
    (samples : List Nat) (newId ts : String) : Option (BuyResult × DB) :=
  (generateTicketNumbers samples).map
    (fun numbers => buyTicket maxPerDraw maxPerUser userId db numbers newId ts)

/-- `draw` with the number generation inlined, as in the source where the new
draw's numbers come from the same `generateTicketNumbers()` helper. -/
def drawGen (user : Option User) (db : DB) (samples : List Nat)
    (newId date : String) : Option (DrawResult × DB) :=
  (generateTicketNumbers samples).map
    (fun numbers => draw user db numbers newId date)

/-! ### Durable store adapter (`utils/readWriteJSON.js`) -/

/-- Outcome of `JSON.parse` on the raw file contents: a parsed document, or a
`SyntaxError`. -/
inductive ParseOutcome
  | parsed (d : DB)
  | malformed
deriving DecidableEq, Repr

/-- Outcome of `fs.readFile`: the file's contents, an `ENOENT` rejection, or
any other I/O rejection (`EACCES`, disk error, ...). -/
inductive ReadOutcome
  | content (p : ParseOutcome)
  | enoent
  | ioError
deriving DecidableEq, Repr

/-- Embeds `readJSON` (utils/readWriteJSON.js lines 37-60): parse the file's
contents; on `ENOENT` or a `SyntaxError` return `null` (modelled `ok none`);
re-throw every other error (modelled `error`). -/
def readJSON : ReadOutcome → Except Unit (Option DB)
  | .content (.parsed d) => .ok (some d)
  | .content .malformed => .ok none
  | .enoent => .ok none
  | .ioError => .error ()

/-- Embeds `loadDB` (lotteryController.js lines 52-62): `readJSON` with
`data ?? empty` on success, and a `catch` block that turns ANY error thrown
by `readJSON` into the empty document (after logging). -/
def loadDB (r : ReadOutcome) : DB :=
  match readJSON r with
  | .ok (some d) => d
  | .ok none => emptyDB
  | .error _ => emptyDB

/-! ### Write serializer (`writeDBAtomic`, lotteryController.js lines 68-73)

`let pendingWrite = Promise.resolve();
 async function writeDBAtomic(payload) {
   pendingWrite = pendingWrite.then(() => writeJSON(LOTTERY_DB, payload));
   await pendingWrite; }`

The chain state is the settled state the promise `pendingWrite` will reach;
a job is what the enqueued `writeJSON` call would do if it ran.  JS
one-argument `then` semantics: on a fulfilled chain the callback runs and
the new promise settles like the callback's result; on a rejected chain the
callback is skipped and the rejection passes through. -/

/-- Settled state of the `pendingWrite` promise chain; rejections carry an
error token. -/
inductive PromiseChain
  | fulfilled
  | rejectedWith (e : Nat)
deriving DecidableEq, Repr

/-- Behaviour of one enqueued `writeJSON` call, were it to run. -/
inductive WriteJob
  | jobOk
  | jobFail (e : Nat)
deriving DecidableEq, Repr

/-- One `writeDBAtomic` call: `pendingWrite = pendingWrite.then(job)`.
Returns whether the writer callback actually executed, and the new chain
state (which is also what this call's `await pendingWrite` sees). -/
def enqueueWrite : PromiseChain → WriteJob → Bool × PromiseChain
  | .rejectedWith e, _ => (false, .rejectedWith e)
  | .fulfilled, .jobOk => (true, .fulfilled)
  | .fulfilled, .jobFail e => (true, .rejectedWith e)

/-- Enqueue a FIFO list of write jobs, collecting for each whether its
writer executed, and the final chain state. -/
def runWriteQueue : PromiseChain → List WriteJob → List Bool × PromiseChain
  | chain, [] => ([], chain)
  | chain, j :: rest =>
    let r := enqueueWrite chain j
    let rs := runWriteQueue r.2 rest
    (r.1 :: rs.1, rs.2)

/-! ### Interleaved execution of two concurrent `buyTicket` requests

Node's event loop interleaves requests at `await` points.  `buyTicket`
`await`s `loadDB()` (a file read) and later `writeDBAtomic(db)`; the
serialized writer `() => writeJSON(LOTTERY_DB, payload)` receives the
already-computed payload, so the load is NOT inside the serializer slot.
We model each request as two atomic events against the committed file:
`load` (take a snapshot of the current file) and `commit` (replace the
whole file with the payload computed from that snapshot).  Any schedule in
which each request loads before it commits is a legal interleaving; the
serializer only ensures the two `commit`s do not overlap, which is already
atomic here. -/

/-- State of the shared file plus each request's loaded snapshot (`none`
until that request's `loadDB` has resolved). -/
structure ConcState where
  file : DB
  snap1 : Option DB
  snap2 : Option DB
deriving DecidableEq, Repr

/-- Scheduler events: request 1 or 2 performs its load or its serialized
commit. -/
inductive ConcEv
  | load1
  | load2
  | commit1
  | commit2
deriving DecidableEq, Repr

/-- One scheduler step: `p1`/`p2` map a request's loaded snapshot to the
whole-document payload it enqueues (for `buyTicket`, the snapshot with its
new ticket pushed).  A commit before the request's load has resolved cannot
happen in the source and is a no-op here. -/
def concStep (p1 p2 : DB → DB) (s : ConcState) : ConcEv → ConcState
  | .load1 => { s with snap1 := some s.file }
  | .load2 => { s with snap2 := some s.file }
  | .commit1 =>
    match s.snap1 with
    | some d => { s with file := p1 d }
    | none => s
  | .commit2 =>
    match s.snap2 with
    | some d => { s with file := p2 d }
    | none => s

/-- Run a schedule of events. -/
def concRun (p1 p2 : DB → DB) (s : ConcState) : List ConcEv → ConcState
  | [] => s
  | e :: rest => concRun p1 p2 (concStep p1 p2 s e) rest

/-- The whole-document payload a successful `buyTicket` computes from its
loaded snapshot and hands to `writeDBAtomic`. -/
def buyWriter (maxPerDraw maxPerUser : Nat) (uid : String) (numbers : List Nat)
    (newId ts : String) (snapshot : DB) : DB :=
  (buyTicket maxPerDraw maxPerUser (some uid) snapshot numbers newId ts).2

/-! ### Sequential operational semantics (for reachability claims) -/

/-- One committed mutating operation on the persisted document: a
`buyTicket` request or a `draw` request with arbitrary caller, RNG output,
fresh id and timestamp (read-only operations leave the document unchanged). -/
inductive OpStep : DB → DB → Prop
  | buy (maxPerDraw maxPerUser : Nat) (userId : Option String) (db : DB)
      (numbers : List Nat) (newId ts : String) :
      OpStep db (buyTicket maxPerDraw maxPerUser userId db numbers newId ts).2
  | runDraw (user : Option User) (db : DB) (numbers : List Nat)
      (newId date : String) :
      OpStep db (draw user db numbers newId date).2

/-- Reflexive-transitive closure of `OpStep`: the documents reachable from a
given document by running operations sequentially. -/
inductive Reachable : DB → DB → Prop
  | refl (db : DB) : Reachable db db
  | tail {a b c : DB} : Reachable a b → OpStep b c → Reachable a c

/-! ## Helper lemmas -/

/-- `List.contains` agrees with decidable membership. -/
theorem contains_eq_decide (d : List Nat) (x : Nat) : d.contains x = decide (x ∈ d) := by
  by_cases hx : x ∈ d
  · rw [decide_eq_true hx]
    exact List.elem_iff.mpr hx
  · rw [decide_eq_false hx]
    cases hc : d.contains x with
    | false => rfl
    | true => exact absurd (List.elem_iff.mp hc) hx

/-- On a duplicate-free ticket, `countMatches` is the cardinality of the
intersection of the two number sets. -/
theorem countMatches_eq_inter_card (t d : List Nat) (h : t.Nodup) :
    countMatches t d = (t.toFinset ∩ d.toFinset).card := by
  induction t with
  | nil => simp [countMatches]
  | cons a tl ih =>
    rw [List.nodup_cons] at h
    obtain ⟨ha, htl⟩ := h
    rw [countMatches, List.filter_cons, List.toFinset_cons]
    rw [countMatches] at ih
    by_cases hm : a ∈ d
    · rw [contains_eq_decide, decide_eq_true hm, if_pos rfl]
      have hnotin : a ∉ tl.toFinset ∩ d.toFinset := by
        intro hx
        exact ha (List.mem_toFinset.mp (Finset.mem_inter.mp hx).1)
      rw [Finset.insert_inter_of_mem (List.mem_toFinset.mpr hm),
        Finset.card_insert_of_not_mem hnotin, List.length_cons, ih htl]
    · rw [contains_eq_decide, decide_eq_false hm, if_neg (by simp)]
      rw [Finset.insert_inter_of_not_mem (fun hx => hm (List.mem_toFinset.mp hx))]
      exact ih htl

/-- `countMatches` is invariant under reordering of the ticket's numbers. -/
theorem countMatches_perm_left (t t' d : List Nat) (h : t.Perm t') :
    countMatches t d = countMatches t' d :=
  (h.filter _).length_eq

/-- `countMatches` is invariant under reordering of the draw's numbers. -/
theorem countMatches_perm_right (t d d' : List Nat) (h : d.Perm d') :
    countMatches t d = countMatches t d' := by
  unfold countMatches
  rw [List.filter_congr]
  intro x _
  rw [contains_eq_decide, contains_eq_decide]
  by_cases hx : x ∈ d
  · rw [decide_eq_true hx, decide_eq_true (h.mem_iff.mp hx)]
  · rw [decide_eq_false hx, decide_eq_false (fun hx2 => hx (h.mem_iff.mpr hx2))]

/-! ## Claim theorems -/

/-- Claim C1 (failing execution): two concurrent `IssueTicket` requests
against the same (empty) ledger store, interleaved as Node permits — both
`loadDB` calls resolve before either serialized write runs — each report
success, and the serializer then commits both whole-document payloads in
FIFO order; the persisted document afterwards contains only the second
request's ticket: one ticket more than before, not two.  The first commit
is overwritten because each payload was computed from a snapshot loaded
BEFORE entering the serializer slot, refuting the claim that the load
happens inside the serialized write path and that no update is lost. -/
theorem c1_lost_update_execution :
    (buyTicket 1000 100 (some "u1") emptyDB [1, 2, 3, 4, 5, 6] "t1" "ts1").1 =
      BuyResult.created ⟨"t1", "u1", [1, 2, 3, 4, 5, 6], none, "ts1"⟩ ∧
    (buyTicket 1000 100 (some "u2") emptyDB [7, 8, 9, 10, 11, 12] "t2" "ts2").1 =
      BuyResult.created ⟨"t2", "u2", [7, 8, 9, 10, 11, 12], none, "ts2"⟩ ∧
    (concRun (buyWriter 1000 100 "u1" [1, 2, 3, 4, 5, 6] "t1" "ts1")
             (buyWriter 1000 100 "u2" [7, 8, 9, 10, 11, 12] "t2" "ts2")
             ⟨emptyDB, none, none⟩
             [ConcEv.load1, ConcEv.load2, ConcEv.commit1, ConcEv.commit2]).file =
      ⟨[], [⟨"t2", "u2", [7, 8, 9, 10, 11, 12], none, "ts2"⟩]⟩ := by
  decide

/-- Claim C2 (failing execution): once one enqueued write fails, the
`pendingWrite` chain built with a one-argument `then` is permanently
rejected, so the next enqueued write — and every write after it — is
skipped (its writer callback never executes) and its caller receives the
first write's error, refuting the claim that a failure never prevents later
queued writes from running. -/
theorem c2_failed_write_poisons_queue :
    runWriteQueue PromiseChain.fulfilled
      [WriteJob.jobFail 7, WriteJob.jobOk, WriteJob.jobOk] =
      ([true, false, false], PromiseChain.rejectedWith 7) := by
  decide

/-- Claim C8 (failing execution): the store adapter `readJSON` does re-throw
a non-`ENOENT` I/O failure, but the ledger load `loadDB` catches every
error and returns the empty document, so such failures never propagate to
the operation's caller — while the missing-file and malformed-JSON cases do
return the empty document as claimed. -/
theorem c8_io_error_treated_as_empty :
    readJSON ReadOutcome.ioError = Except.error () ∧
    loadDB ReadOutcome.ioError = emptyDB ∧
    loadDB ReadOutcome.enoent = emptyDB ∧
    loadDB (ReadOutcome.content ParseOutcome.malformed) = emptyDB :=
  ⟨rfl, rfl, rfl, rfl⟩

/-- Claim C6 (counterexample): the prize label for 6 matches is the string
"Jackpot!", not "Jackpot" as the claim's table states. -/
theorem c6_jackpot_label_counterexample : ¬ (prizeFromMatches 6 = "Jackpot") := by
  decide

/-- Claim C6 (amended): `countMatches ticket draw` equals the cardinality of
the intersection of the two number sets (for a duplicate-free ticket, which
every generated ticket is) and is invariant under reordering of either
input; the prize label is a pure function of the match count given exactly
by the table 6 ↦ "Jackpot!", 5 ↦ "Big prize", 4 ↦ "Small prize", any other
count ↦ "No prize". -/
theorem c6_match_count_and_prize_table :
    (∀ t d : List Nat, t.Nodup → countMatches t d = (t.toFinset ∩ d.toFinset).card) ∧
    (∀ t t' d : List Nat, t.Perm t' → countMatches t d = countMatches t' d) ∧
    (∀ t d d' : List Nat, d.Perm d' → countMatches t d = countMatches t d') ∧
    prizeFromMatches 6 = "Jackpot!" ∧
    prizeFromMatches 5 = "Big prize" ∧
    prizeFromMatches 4 = "Small prize" ∧
    (∀ m : Nat, m ≠ 6 → m ≠ 5 → m ≠ 4 → prizeFromMatches m = "No prize") := by
  refine ⟨countMatches_eq_inter_card, countMatches_perm_left, countMatches_perm_right,
    rfl, rfl, rfl, ?_⟩
  intro m h6 h5 h4
  match m with
  | 0 | 1 | 2 | 3 => rfl
  | 4 => exact absurd rfl h4
  | 5 => exact absurd rfl h5
  | 6 => exact absurd rfl h6
  | n + 7 => rfl

/-- Claim C6 witness: the amended theorem evaluated at concrete inputs. -/
theorem c6_match_count_and_prize_table_witness :
    countMatches [3, 12, 19, 27, 41, 49] [3, 8, 19, 27, 33, 44] =
      (([3, 12, 19, 27, 41, 49] : List Nat).toFinset ∩
        ([3, 8, 19, 27, 33, 44] : List Nat).toFinset).card ∧
    prizeFromMatches 7 = "No prize" :=
  ⟨c6_match_count_and_prize_table.1 _ _ (by decide),
   c6_match_count_and_prize_table.2.2.2.2.2.2 7 (by decide) (by decide) (by decide)⟩

/-- Claim C7 (counterexample): an identity whose role field is present but
not the admin marker is rejected by `isAdmin` without consulting the email
fallback, while the claim's reading ("the legacy fallback applies whenever
the role test did not yield true", captured by `isAdminSpec`) accepts it
through its administrative-domain email. -/
theorem c7_role_shadows_email_counterexample :
    isAdmin (some ⟨some "editor", some "alice@admin.com"⟩) = false ∧
    isAdminSpec (some ⟨some "editor", some "alice@admin.com"⟩) = true := by
  decide

/-- Claim C7 (amended): `isAdmin` returns false for an absent identity; for
a present identity it returns true exactly when the role field equals the
admin marker, or when the role field is absent-or-falsy and the email field
ends in the administrative domain suffix.  The email fallback is consulted
only when the identity carries no truthy role field — a truthy non-admin
role yields false regardless of email. -/
theorem c7_isAdmin_characterization :
    isAdmin none = false ∧
    ∀ u : User, (isAdmin (some u) = true ↔
      (u.role = some "admin" ∨
       (truthyField u.role = false ∧
        ∃ e, u.email = some e ∧ List.isSuffixOf "@admin.com".data e.data = true))) := by
  refine ⟨rfl, ?_⟩
  intro u
  rw [isAdmin]
  cases hr : u.role with
  | none =>
    cases he : u.email with
    | none => simp [truthyField]
    | some e => simp [truthyField]
  | some s =>
    by_cases hs : s = ""
    · subst hs
      cases he : u.email with
      | none => simp [truthyField]
      | some e => simp [truthyField]
    · simp [truthyField, hs]

/-- Claim C7 witness: the characterization applied to a roleless identity
with an administrative-domain email. -/
theorem c7_isAdmin_characterization_witness :
    isAdmin (some ⟨none, some "bob@admin.com"⟩) = true :=
  (c7_isAdmin_characterization.2 ⟨none, some "bob@admin.com"⟩).mpr
    (Or.inr ⟨rfl, "bob@admin.com", rfl, by decide⟩)

/-- An admin caller's `draw` on a document holding an unfilled draw (a draw
referenced by no ticket) answers the conflict error and leaves the document
unchanged. -/
theorem draw_conflict_of_unfilled (user : Option User) (db : DB) (numbers : List Nat)
    (newId date : String) (hAdmin : isAdmin user = true)
    (hUnfilled : ∃ d ∈ db.draws, ∀ t ∈ db.tickets, t.drawId ≠ some d.id) :
    draw user db numbers newId date = (DrawResult.conflict, db) := by
  obtain ⟨d, hd, hnone⟩ := hUnfilled
  have hp : (!(db.tickets.any (fun t => t.drawId == some d.id))) = true := by
    simp only [Bool.not_eq_true']
    cases hany : db.tickets.any (fun t => t.drawId == some d.id) with
    | false => rfl
    | true =>
      obtain ⟨t, ht, hbeq⟩ := List.any_eq_true.mp hany
      exact absurd (beq_iff_eq.mp hbeq) (hnone t ht)
  cases h0 : findOpenDraw db with
  | none =>
    exact absurd hp (List.find?_eq_none.mp h0 d hd)
  | some d2 => simp [draw, hAdmin, h0]

/-- When `draw` answers `created nd`, the new draw is built from the supplied
id, numbers and date, and the committed document is the input document with
the draw appended and every pending ticket reassigned to it. -/
theorem draw_created_eq (user : Option User) (db : DB) (numbers : List Nat)
    (newId date : String) (nd : Draw)
    (h : (draw user db numbers newId date).1 = DrawResult.created nd) :
    nd = ⟨newId, numbers, date⟩ ∧
    (draw user db numbers newId date).2 =
      { draws := db.draws ++ [⟨newId, numbers, date⟩],
        tickets := db.tickets.map (fun t =>
          if t.drawId == none then { t with drawId := some newId } else t) } := by
  by_cases hA : isAdmin user = true
  · cases h0 : findOpenDraw db with
    | some d2 => simp [draw, hA, h0] at h
    | none =>
      have hnd : nd = ⟨newId, numbers, date⟩ := by
        simp [draw, hA, h0] at h
        exact h.symm
      refine ⟨hnd, ?_⟩
      simp [draw, hA, h0]
  · simp only [draw] at h
    rw [Bool.not_eq_true] at hA
    rw [hA] at h
    cases h

/-- Claim C3: `ExecuteDraw` fails with the conflict error whenever at least
one existing draw has zero tickets whose `drawId` references it; the check
precedes creation, so no draw is created, no ticket is modified, and the
committed document is unchanged. -/
theorem c3_unfilled_draw_blocks (user : Option User) (db : DB) (numbers : List Nat)
    (newId date : String) (hAdmin : isAdmin user = true)
    (hUnfilled : ∃ d ∈ db.draws, ∀ t ∈ db.tickets, t.drawId ≠ some d.id) :
    draw user db numbers newId date = (DrawResult.conflict, db) :=
  draw_conflict_of_unfilled user db numbers newId date hAdmin hUnfilled

/-- Claim C3 witness: an admin's draw against a document whose one draw has
no tickets is rejected with the conflict error and commits nothing. -/
theorem c3_unfilled_draw_blocks_witness :
    draw (some ⟨some "admin", none⟩) ⟨[⟨"d1", [1, 2, 3, 4, 5, 6], "t0"⟩], []⟩
      [7, 8, 9, 10, 11, 12] "d2" "t1" =
      (DrawResult.conflict, ⟨[⟨"d1", [1, 2, 3, 4, 5, 6], "t0"⟩], []⟩) :=
  c3_unfilled_draw_blocks _ _ _ _ _ (by decide)
    ⟨⟨"d1", [1, 2, 3, 4, 5, 6], "t0"⟩, by decide, by decide⟩

/-- Claim C4: after a successful `ExecuteDraw`, the new draw is appended to
the draws sequence; position by position, every ticket whose `drawId` was
null immediately before now carries the new draw's id, and every ticket
that was already assigned is unchanged in all fields — all in the one
committed document `(draw ...).2`, i.e. in a single commit. -/
theorem c4_bulk_assignment (user : Option User) (db : DB) (numbers : List Nat)
    (newId date : String) (nd : Draw)
    (h : (draw user db numbers newId date).1 = DrawResult.created nd) :
    (draw user db numbers newId date).2.draws = db.draws ++ [nd] ∧
    (draw user db numbers newId date).2.tickets.length = db.tickets.length ∧
    ∀ (i : Nat) (hi : i < db.tickets.length)
      (hi2 : i < (draw user db numbers newId date).2.tickets.length),
      ((db.tickets[i]).drawId = none →
        (draw user db numbers newId date).2.tickets[i] =
          { db.tickets[i] with drawId := some nd.id }) ∧
      ((db.tickets[i]).drawId ≠ none →
        (draw user db numbers newId date).2.tickets[i] = db.tickets[i]) := by
  obtain ⟨hnd, hdb⟩ := draw_created_eq user db numbers newId date nd h
  subst hnd
  rw [hdb]
  refine ⟨rfl, List.length_map _ _, ?_⟩
  intro i hi hi2
  constructor
  · intro hnone
    rw [List.getElem_map]
    rw [if_pos]
    rw [hnone]
    rfl
  · intro hsome
    rw [List.getElem_map]
    rw [if_neg]
    intro hb
    exact hsome (beq_iff_eq.mp hb)

/-- Claim C4 witness: a successful draw over one pending and one assigned
ticket appends exactly the new draw and keeps the ticket count. -/
theorem c4_bulk_assignment_witness :
    (draw (some ⟨some "admin", none⟩)
        ⟨[], [⟨"tA", "u", [1], none, "p1"⟩, ⟨"tB", "u", [2], some "d0", "p2"⟩]⟩
        [7, 8, 9, 10, 11, 12] "D" "ts").2.draws = [⟨"D", [7, 8, 9, 10, 11, 12], "ts"⟩] ∧
    (draw (some ⟨some "admin", none⟩)
        ⟨[], [⟨"tA", "u", [1], none, "p1"⟩, ⟨"tB", "u", [2], some "d0", "p2"⟩]⟩
        [7, 8, 9, 10, 11, 12] "D" "ts").2.tickets.length = 2 :=
  have h := c4_bulk_assignment (some ⟨some "admin", none⟩)
    ⟨[], [⟨"tA", "u", [1], none, "p1"⟩, ⟨"tB", "u", [2], some "d0", "p2"⟩]⟩
    [7, 8, 9, 10, 11, 12] "D" "ts" ⟨"D", [7, 8, 9, 10, 11, 12], "ts"⟩ (by decide)
  ⟨h.1.trans (List.nil_append _), h.2.1⟩

/-- Claim C5: against the loaded document, `IssueTicket` answers the global
capacity error when the pending-ticket count has reached `maxPerDraw`,
answers the per-user capacity error when the global count is below its
maximum but the caller's own pending count has reached `maxPerUser`, and in
both cases commits nothing; when both counts are strictly below their
maxima it succeeds and the committed document is the input with exactly one
new pending ticket appended. -/
theorem c5_capacity_checks (maxPerDraw maxPerUser : Nat) (uid : String) (db : DB)
    (numbers : List Nat) (newId ts : String) :
    (maxPerDraw ≤ (ticketsWithoutDraw db).length →
      buyTicket maxPerDraw maxPerUser (some uid) db numbers newId ts =
        (BuyResult.capacityGlobal, db)) ∧
    ((ticketsWithoutDraw db).length < maxPerDraw →
      maxPerUser ≤ (myPendingTickets db uid).length →
      buyTicket maxPerDraw maxPerUser (some uid) db numbers newId ts =
        (BuyResult.capacityUser, db)) ∧
    ((ticketsWithoutDraw db).length < maxPerDraw →
      (myPendingTickets db uid).length < maxPerUser →
      buyTicket maxPerDraw maxPerUser (some uid) db numbers newId ts =
        (BuyResult.created ⟨newId, uid, numbers, none, ts⟩,
         { db with tickets := db.tickets ++ [⟨newId, uid, numbers, none, ts⟩] })) := by
  refine ⟨?_, ?_, ?_⟩
  · intro h
    simp [buyTicket, h]
  · intro h1 h2
    simp [buyTicket, Nat.not_le.mpr h1, h2]
  · intro h1 h2
    simp [buyTicket, Nat.not_le.mpr h1, Nat.not_le.mpr h2]

/-- Claim C5 witness: with both limits at 1 and an empty document, a
purchase succeeds and appends the one new pending ticket. -/
theorem c5_capacity_checks_witness :
    buyTicket 1 1 (some "u") emptyDB [1, 2, 3, 4, 5, 6] "t1" "ts" =
      (BuyResult.created ⟨"t1", "u", [1, 2, 3, 4, 5, 6], none, "ts"⟩,
       { emptyDB with
         tickets := emptyDB.tickets ++ [⟨"t1", "u", [1, 2, 3, 4, 5, 6], none, "ts"⟩] }) :=
  (c5_capacity_checks 1 1 "u" emptyDB [1, 2, 3, 4, 5, 6] "t1" "ts").2.2
    (by decide) (by decide)

/-- Adding a value to the JS-set accumulator preserves distinctness. -/
theorem addSample_nodup (acc : List Nat) (n : Nat) (h : acc.Nodup) : (addSample acc n).Nodup := by
  rw [addSample]
  split
  · exact h
  · rename_i hn
    simp [List.nodup_append, h, hn]

/-- Every member of the accumulator after an add was already there or is the
added value. -/
theorem addSample_mem (acc : List Nat) (n x : Nat) (hx : x ∈ addSample acc n) :
    x ∈ acc ∨ x = n := by
  rw [addSample] at hx
  split at hx
  · exact Or.inl hx
  · rcases List.mem_append.mp hx with h | h
    · exact Or.inl h
    · exact Or.inr (List.mem_singleton.mp h)

/-- The sampling loop, started from a distinct in-range accumulator over an
in-range sample stream, can only return a set of 6 distinct values in
`[1,49]`. -/
theorem collectSamples_spec (samples : List Nat) : ∀ (acc l : List Nat),
    (∀ s ∈ samples, s ≤ 48) →
    acc.Nodup → (∀ n ∈ acc, 1 ≤ n ∧ n ≤ 49) →
    collectSamples samples acc = some l →
    l.length = 6 ∧ l.Nodup ∧ ∀ n ∈ l, 1 ≤ n ∧ n ≤ 49 := by
  induction samples with
  | nil =>
    intro acc l _ hnd hbd h
    rw [collectSamples] at h
    split at h
    · rename_i hlen
      cases h
      exact ⟨hlen, hnd, hbd⟩
    · cases h
  | cons s rest ih =>
    intro acc l hs hnd hbd h
    rw [collectSamples] at h
    split at h
    · rename_i hlen
      cases h
      exact ⟨hlen, hnd, hbd⟩
    · refine ih (addSample acc (s + 1)) l
        (fun x hx => hs x (List.mem_cons_of_mem _ hx))
        (addSample_nodup _ _ hnd) ?_ h
      intro n hn
      rcases addSample_mem acc (s + 1) n hn with hmem | rfl
      · exact hbd n hmem
      · have hs48 : s ≤ 48 := hs s (List.mem_cons_self _ _)
        omega

/-- Any number list the generator produces from an in-range sample stream
has exactly 6 distinct values in `[1,49]` and is sorted ascending. -/
theorem generateTicketNumbers_spec (samples l : List Nat)
    (hs : ∀ s ∈ samples, s ≤ 48)
    (h : generateTicketNumbers samples = some l) :
    l.length = 6 ∧ l.Nodup ∧ (∀ n ∈ l, 1 ≤ n ∧ n ≤ 49) ∧ l.Sorted (· ≤ ·) := by
  rw [generateTicketNumbers] at h
  cases hc : collectSamples samples [] with
  | none => rw [hc] at h; cases h
  | some l0 =>
    rw [hc] at h
    obtain ⟨h6, hnd, hbd⟩ :=
      collectSamples_spec samples [] l0 hs List.nodup_nil (by simp) hc
    have hperm : (List.insertionSort (· ≤ ·) l0).Perm l0 :=
      List.perm_insertionSort _ _
    have hl : List.insertionSort (· ≤ ·) l0 = l := by
      simpa using h
    subst hl
    exact ⟨hperm.length_eq.trans h6, hperm.nodup_iff.mpr hnd,
      fun n hn => hbd n (hperm.mem_iff.mp hn),
      List.sorted_insertionSort _ _⟩

/-- A ticket `buyTicket` reports as created is built from the supplied fresh
id, caller, numbers and timestamp, with a null `drawId`. -/
theorem buyTicket_created_numbers (maxPerDraw maxPerUser : Nat) (userId : Option String)
    (db : DB) (nums : List Nat) (newId ts : String) (t : Ticket)
    (h : (buyTicket maxPerDraw maxPerUser userId db nums newId ts).1 = BuyResult.created t) :
    t = ⟨newId, (userId.getD t.userId), nums, none, ts⟩ := by
  cases userId with
  | none => cases h
  | some uid =>
    by_cases h1 : maxPerDraw ≤ (ticketsWithoutDraw db).length
    · simp [buyTicket, h1] at h
    · by_cases h2 : maxPerUser ≤ (myPendingTickets db uid).length
      · simp [buyTicket, h1, h2] at h
      · simp [buyTicket, h1, h2] at h
        simp [← h]

/-- Claim C9: every number set produced by `generateTicketNumbers` over a
faithful RNG stream (each sampled floor value in `[0,48]`) contains exactly
6 distinct integers in `[1,49]` sorted ascending; both the ticket a
purchase creates and the draw an `ExecuteDraw` creates carry numbers from
this same generator and so satisfy the same property. -/
theorem c9_generated_number_sets (samples : List Nat) (hs : ∀ s ∈ samples, s ≤ 48) :
    (∀ l, generateTicketNumbers samples = some l →
      l.length = 6 ∧ l.Nodup ∧ (∀ n ∈ l, 1 ≤ n ∧ n ≤ 49) ∧ l.Sorted (· ≤ ·)) ∧
    (∀ maxPerDraw maxPerUser userId db newId ts res t,
      buyTicketGen maxPerDraw maxPerUser userId db samples newId ts = some res →
      res.1 = BuyResult.created t →
      t.numbers.length = 6 ∧ t.numbers.Nodup ∧
        (∀ n ∈ t.numbers, 1 ≤ n ∧ n ≤ 49) ∧ t.numbers.Sorted (· ≤ ·)) ∧
    (∀ user db newId date res nd,
      drawGen user db samples newId date = some res →
      res.1 = DrawResult.created nd →
      nd.numbers.length = 6 ∧ nd.numbers.Nodup ∧
        (∀ n ∈ nd.numbers, 1 ≤ n ∧ n ≤ 49) ∧ nd.numbers.Sorted (· ≤ ·)) := by
  refine ⟨fun l h => generateTicketNumbers_spec samples l hs h, ?_, ?_⟩
  · intro maxPerDraw maxPerUser userId db newId ts res t hgen hres
    rw [buyTicketGen] at hgen
    cases hc : generateTicketNumbers samples with
    | none => rw [hc] at hgen; cases hgen
    | some nums =>
      rw [hc] at hgen
      have hres2 : buyTicket maxPerDraw maxPerUser userId db nums newId ts = res := by
        simpa using hgen
      have ht := buyTicket_created_numbers maxPerDraw maxPerUser userId db nums newId ts t
        (by rw [hres2]; exact hres)
      have hnums : t.numbers = nums := by rw [ht]
      rw [hnums]
      exact generateTicketNumbers_spec samples nums hs hc
  · intro user db newId date res nd hgen hres
    rw [drawGen] at hgen
    cases hc : generateTicketNumbers samples with
    | none => rw [hc] at hgen; cases hgen
    | some nums =>
      rw [hc] at hgen
      have hres2 : draw user db nums newId date = res := by
        simpa using hgen
      have hnd := (draw_created_eq user db nums newId date nd
        (by rw [hres2]; exact hres)).1
      have hnums : nd.numbers = nums := by rw [hnd]
      rw [hnums]
      exact generateTicketNumbers_spec samples nums hs hc

/-- Claim C9 witness: the generator applied to the sample stream
`[0,1,2,3,4,5]` produces `[1,2,3,4,5,6]`, which has the claimed shape. -/
theorem c9_generated_number_sets_witness :
    ([1, 2, 3, 4, 5, 6] : List Nat).length = 6 ∧
    ([1, 2, 3, 4, 5, 6] : List Nat).Nodup ∧
    (∀ n ∈ ([1, 2, 3, 4, 5, 6] : List Nat), 1 ≤ n ∧ n ≤ 49) ∧
    ([1, 2, 3, 4, 5, 6] : List Nat).Sorted (· ≤ ·) :=
  (c9_generated_number_sets [0, 1, 2, 3, 4, 5] (by decide)).1 [1, 2, 3, 4, 5, 6] (by decide)

/-- `buyTicket` never touches the draws, and either leaves the tickets
unchanged (rejection) or appends exactly one ticket with a null `drawId`. -/
theorem buyTicket_snd_spec (maxPerDraw maxPerUser : Nat) (userId : Option String) (db : DB)
    (nums : List Nat) (newId ts : String) :
    (buyTicket maxPerDraw maxPerUser userId db nums newId ts).2.draws = db.draws ∧
    ((buyTicket maxPerDraw maxPerUser userId db nums newId ts).2.tickets = db.tickets ∨
     ∃ uid, (buyTicket maxPerDraw maxPerUser userId db nums newId ts).2.tickets =
       db.tickets ++ [⟨newId, uid, nums, none, ts⟩]) := by
  cases userId with
  | none => exact ⟨rfl, Or.inl rfl⟩
  | some uid =>
    by_cases h1 : maxPerDraw ≤ (ticketsWithoutDraw db).length
    · refine ⟨?_, Or.inl ?_⟩ <;> simp [buyTicket, h1]
    · by_cases h2 : maxPerUser ≤ (myPendingTickets db uid).length
      · refine ⟨?_, Or.inl ?_⟩ <;> simp [buyTicket, h1, h2]
      · refine ⟨?_, Or.inr ⟨uid, ?_⟩⟩ <;> simp [buyTicket, h1, h2]

/-- On a document holding an unfilled draw, `draw` fails — with the
forbidden error for a non-admin and the conflict error for an admin — and
commits no change. -/
theorem draw_unfilled_fails (user : Option User) (db : DB) (nums : List Nat)
    (newId date : String)
    (hU : ∃ d ∈ db.draws, ∀ t ∈ db.tickets, t.drawId ≠ some d.id) :
    ((draw user db nums newId date).1 = DrawResult.forbidden ∨
     (draw user db nums newId date).1 = DrawResult.conflict) ∧
    (isAdmin user = true → (draw user db nums newId date).1 = DrawResult.conflict) ∧
    (draw user db nums newId date).2 = db := by
  by_cases hA : isAdmin user = true
  · rw [draw_conflict_of_unfilled user db nums newId date hA hU]
    exact ⟨Or.inr rfl, fun _ => rfl, rfl⟩
  · have h : draw user db nums newId date = (DrawResult.forbidden, db) := by
      simp [draw, hA]
    rw [h]
    exact ⟨Or.inl rfl, fun hAd => absurd hAd hA, rfl⟩

/-- One operation step preserves the existence of an unfilled draw: a
purchase only appends a pending (null-`drawId`) ticket, and a draw request
fails without mutation while an unfilled draw exists. -/
theorem unfilled_preserved (a b : DB)
    (hU : ∃ d ∈ a.draws, ∀ t ∈ a.tickets, t.drawId ≠ some d.id)
    (hs : OpStep a b) :
    ∃ d ∈ b.draws, ∀ t ∈ b.tickets, t.drawId ≠ some d.id := by
  obtain ⟨d, hd, hnone⟩ := hU
  cases hs with
  | buy maxPerDraw maxPerUser userId dbv nums newId ts =>
    obtain ⟨hdraws, htickets⟩ := buyTicket_snd_spec maxPerDraw maxPerUser userId a nums newId ts
    refine ⟨d, by rw [hdraws]; exact hd, ?_⟩
    rcases htickets with h | ⟨uid, h⟩
    · rw [h]; exact hnone
    · rw [h]
      intro t ht
      rcases List.mem_append.mp ht with h2 | h2
      · exact hnone t h2
      · rw [List.mem_singleton.mp h2]
        simp
  | runDraw user dbv nums newId date =>
    rw [(draw_unfilled_fails user a nums newId date ⟨d, hd, hnone⟩).2.2]
    exact ⟨d, hd, hnone⟩

/-- The unfilled-draw invariant holds in every reachable document. -/
theorem unfilled_preserved_reachable (a b : DB)
    (hU : ∃ d ∈ a.draws, ∀ t ∈ a.tickets, t.drawId ≠ some d.id)
    (hr : Reachable a b) :
    ∃ d ∈ b.draws, ∀ t ∈ b.tickets, t.drawId ≠ some d.id := by
  induction hr with
  | refl => exact hU
  | tail hab hbc ih => exact unfilled_preserved _ _ ih hbc

/-- The bulk-assignment map is the identity on a ticket list with no pending
ticket. -/
theorem map_assign_eq_self (l : List Ticket) (newId : String)
    (h : ∀ t ∈ l, t.drawId ≠ none) :
    l.map (fun t => if t.drawId = none then { t with drawId := some newId } else t) = l := by
  induction l with
  | nil => rfl
  | cons a tl ih =>
    rw [List.map_cons, if_neg (h a (List.mem_cons_self _ _)),
      ih (fun t ht => h t (List.mem_cons_of_mem _ ht))]

/-- On a document with no unfilled draw and no pending ticket, an admin's
`draw` succeeds, appends the new draw and leaves the tickets unchanged. -/
theorem draw_succeeds_clean (user : Option User) (db : DB) (nums : List Nat)
    (newId date : String)
    (hA : isAdmin user = true)
    (hNoU : ∀ d ∈ db.draws, ∃ t ∈ db.tickets, t.drawId = some d.id)
    (hNoP : ∀ t ∈ db.tickets, t.drawId ≠ none) :
    draw user db nums newId date =
      (DrawResult.created ⟨newId, nums, date⟩,
       { draws := db.draws ++ [⟨newId, nums, date⟩], tickets := db.tickets }) := by
  have hfind : findOpenDraw db = none := by
    rw [findOpenDraw, List.find?_eq_none]
    intro d hd
    obtain ⟨t, ht, heq⟩ := hNoU d hd
    have hany : db.tickets.any (fun t => t.drawId == some d.id) = true :=
      List.any_eq_true.mpr ⟨t, ht, beq_iff_eq.mpr heq⟩
    simp [hany]
  simp [draw, hA, hfind]
  exact map_assign_eq_self db.tickets newId hNoP

/-- Claim C10: invoking `ExecuteDraw` on a document in which no existing
draw is unfilled and no ticket is pending succeeds and appends a draw with
zero tickets assigned to it (the fresh id being referenced by no ticket);
from every document reachable from that commit by further operations,
`ExecuteDraw` always fails — with the conflict error for any admin
caller — and commits nothing, because later purchases create tickets with a
null `drawId` and no operation ever attaches a ticket to the pre-existing
unfilled draw. -/
theorem c10_clean_draw_blocks_future_draws
    (user : Option User) (db : DB) (nums : List Nat) (newId date : String)
    (hA : isAdmin user = true)
    (hNoU : ∀ d ∈ db.draws, ∃ t ∈ db.tickets, t.drawId = some d.id)
    (hNoP : ∀ t ∈ db.tickets, t.drawId ≠ none)
    (hFresh : ∀ t ∈ db.tickets, t.drawId ≠ some newId) :
    (draw user db nums newId date).1 = DrawResult.created ⟨newId, nums, date⟩ ∧
    (draw user db nums newId date).2.draws = db.draws ++ [⟨newId, nums, date⟩] ∧
    (∀ t ∈ (draw user db nums newId date).2.tickets, t.drawId ≠ some newId) ∧
    (∀ db2, Reachable (draw user db nums newId date).2 db2 →
      ∀ u2 nums2 id2 date2,
        ((draw u2 db2 nums2 id2 date2).1 = DrawResult.forbidden ∨
         (draw u2 db2 nums2 id2 date2).1 = DrawResult.conflict) ∧
        (isAdmin u2 = true → (draw u2 db2 nums2 id2 date2).1 = DrawResult.conflict) ∧
        (draw u2 db2 nums2 id2 date2).2 = db2) := by
  have hd := draw_succeeds_clean user db nums newId date hA hNoU hNoP
  rw [hd]
  refine ⟨rfl, rfl, hFresh, ?_⟩
  intro db2 hreach u2 nums2 id2 date2
  have hU2 : ∃ d ∈ db2.draws, ∀ t ∈ db2.tickets, t.drawId ≠ some d.id := by
    refine unfilled_preserved_reachable _ _ ?_ hreach
    exact ⟨⟨newId, nums, date⟩, List.mem_append_right _ (List.mem_singleton.mpr rfl), hFresh⟩
  exact draw_unfilled_fails u2 db2 nums2 id2 date2 hU2

/-- Claim C10 witness: on the empty document the first admin draw succeeds,
and an immediately following admin draw on the committed document is
rejected with the conflict error. -/
theorem c10_clean_draw_blocks_future_draws_witness :
    (draw (some ⟨some "admin", none⟩) emptyDB [1, 2, 3, 4, 5, 6] "D" "ts").1 =
      DrawResult.created ⟨"D", [1, 2, 3, 4, 5, 6], "ts"⟩ ∧
    (draw (some ⟨some "admin", none⟩)
        (draw (some ⟨some "admin", none⟩) emptyDB [1, 2, 3, 4, 5, 6] "D" "ts").2
        [7, 8, 9, 10, 11, 12] "D2" "ts2").1 = DrawResult.conflict :=
  have h := c10_clean_draw_blocks_future_draws (some ⟨some "admin", none⟩) emptyDB
    [1, 2, 3, 4, 5, 6] "D" "ts" (by decide) (by decide) (by decide) (by decide)
  ⟨h.1, (h.2.2.2 _ (Reachable.refl _) (some ⟨some "admin", none⟩)
    [7, 8, 9, 10, 11, 12] "D2" "ts2").2.1 (by decide)⟩
